import Mathlib

/-!
Verification development for the LLPC glue-shader generators
(`src/lgc/elfLinker/FetchShader.cpp` and `src/lgc/patch/llpcPatchCopyShader.cpp`).

The C++ code is shallowly embedded: pure value computations become Lean
functions over `Nat` and lists; the IR the generators emit is modelled as
symbolic action lists; machine integers are `Nat` with explicit bounds where
overflow or byte serialization matters.  Byte strings are `List Nat`
(each entry one byte value).
-/

set_option maxHeartbeats 1000000
set_option maxRecDepth 8192

namespace LlpcSpec

/-! ## FetchShader: data model (FetchShader.cpp) -/

/-- Scalar element types that can appear as the element type of a vertex
fetch (`VertexFetchInfo::ty`).  Modelled from the spec: the type is a
"semantic value-type (scalar/vector, element width, integer-vs-float)";
the concrete `llvm::Type` lives outside this excerpt. -/
inductive ScalarTy
  | i8 | i16 | i32 | i64 | f16 | f32 | f64
deriving DecidableEq, Fintype

/-- Number of components of a vertex fetch value type (1 to 4). -/
inductive CompCount
  | c1 | c2 | c3 | c4
deriving DecidableEq, Fintype

/-- A vertex fetch value type: component count paired with element type. -/
abbrev VfTy := CompCount × ScalarTy

/-- ASCII bytes of the mangled name of a scalar element type
(for example `i32` is `[105, 51, 50]`). -/
def ScalarTy.tyName : ScalarTy → List Nat
  | .i8 => [105, 56]
  | .i16 => [105, 49, 54]
  | .i32 => [105, 51, 50]
  | .i64 => [105, 54, 52]
  | .f16 => [102, 49, 54]
  | .f32 => [102, 51, 50]
  | .f64 => [102, 54, 52]

/-- Modelled from the spec: the `getTypeName` helper used by
`FetchShader::getString` (declared outside this excerpt) produces the usual
LLVM-style mangled type name; vectors are prefixed with `v` and the
component count. -/
def getTypeName : VfTy → List Nat
  | (.c1, s) => s.tyName
  | (.c2, s) => 118 :: 50 :: s.tyName
  | (.c3, s) => 118 :: 51 :: s.tyName
  | (.c4, s) => 118 :: 52 :: s.tyName

/-- Little-endian 4-byte serialization of a 32-bit unsigned value, as
produced by `StringRef(reinterpret_cast<const char *>(&x), sizeof(x))` for
an `unsigned` field. -/
def toLE4 (n : Nat) : List Nat :=
  [n % 256, n / 256 % 256, n / 65536 % 256, n / 16777216 % 256]

/-- One entry of the fetch list (`lgc::VertexFetchInfo`): attribute
location, start component, and value type. -/
structure VertexFetchInfo where
  location : Nat
  component : Nat
  ty : VfTy
deriving DecidableEq

/-- Well-formedness of a fetch entry: `location` and `component` are
32-bit `unsigned` values in the C++ struct. -/
abbrev VertexFetchInfo.wf (f : VertexFetchInfo) : Prop :=
  f.location < 4294967296 ∧ f.component < 4294967296

/-- Modelled from the spec: `VertexInputDescription` layout metadata per
attribute, "{buffer binding, stride, offset, format}"; the struct
definition is outside this excerpt and `FetchShader.cpp` uses it opaquely
(serializing its raw bytes). -/
structure VertexInputDescription where
  binding : Nat
  stride : Nat
  offset : Nat
  format : Nat
deriving DecidableEq

/-- Modelled from the spec: `VsEntryRegInfo` (EntryRegisterInfo), the
hardware ABI description: "{calling convention tag, scalar-register count,
vector-register count, named register slot indices for:
attribute-buffer-table pointer, base-vertex, base-instance, vertex-id,
instance-id, wave width flag}".  The struct definition is outside this
excerpt. -/
structure VsEntryRegInfo where
  callingConv : Nat
  sgprCount : Nat
  vgprCount : Nat
  vertexBufferTable : Nat
  baseVertex : Nat
  baseInstance : Nat
  vertexId : Nat
  instanceId : Nat
  wave32 : Bool
deriving DecidableEq

/-- Bytes appended to the shader string for one fetch entry
(`FetchShader::getString`, first loop): raw `location` bytes, raw
`component` bytes, then the type name. -/
def serFetch (f : VertexFetchInfo) : List Nat :=
  toLE4 f.location ++ toLE4 f.component ++ getTypeName f.ty

/-- Bytes appended for one entry of `m_fetchDescriptions`
(`FetchShader::getString`, second loop): a single NUL byte for an absent
description, otherwise the raw bytes of the description. -/
def serDesc : Option VertexInputDescription → List Nat
  | none => [0]
  | some d => toLE4 d.binding ++ toLE4 d.stride ++ toLE4 d.offset ++ toLE4 d.format

/-- Bytes appended for `m_vsEntryRegInfo` (`FetchShader::getString`):
the raw bytes of the register info struct. -/
def serRegInfo (r : VsEntryRegInfo) : List Nat :=
  toLE4 r.callingConv ++ toLE4 r.sgprCount ++ toLE4 r.vgprCount ++
  toLE4 r.vertexBufferTable ++ toLE4 r.baseVertex ++ toLE4 r.baseInstance ++
  toLE4 r.vertexId ++ toLE4 r.instanceId ++ [if r.wave32 then 1 else 0]

/-- State of a `FetchShader` instance after construction.  `addr` is the
memory address at which the instance (and its inputs) happen to live; the
constructor and `getString` never read it, which is what makes the
fingerprint address-independent. -/
structure FetchShader where
  addr : Nat
  fetches : List VertexFetchInfo
  vsEntryRegInfo : VsEntryRegInfo
  fetchDescriptions : List (Option VertexInputDescription)

/-- The `FetchShader` constructor: stores the fetch list and register
info, and resolves one input description per fetch via
`pipelineState->findVertexInputDescription(fetch.location)`. -/
def mkFetchShader (addr : Nat)
    (findVertexInputDescription : Nat → Option VertexInputDescription)
    (fetches : List VertexFetchInfo) (vsEntryRegInfo : VsEntryRegInfo) :
    FetchShader :=
  { addr := addr, fetches := fetches, vsEntryRegInfo := vsEntryRegInfo,
    fetchDescriptions := fetches.map (fun f => findVertexInputDescription f.location) }

/-- `FetchShader::getString`: serializes every fetch entry, then the raw
register info bytes, then every input description (or a NUL byte when
absent). -/
def getString (fs : FetchShader) : List Nat :=
  (fs.fetches.map serFetch).flatten ++ serRegInfo fs.vsEntryRegInfo ++
  (fs.fetchDescriptions.map serDesc).flatten

/-! ## FetchShader: code generation (FetchShader::generate / createFetchFunc) -/

/-- Symbolic value held by one field of the fetch shader's return
struct. -/
inductive FieldVal
  | undef
  | arg (i : Nat)
  | fetched (location component : Nat) (ty : VfTy)
deriving DecidableEq

/-- Return value seeded by `FetchShader::createFetchFunc`: the wave
dispatch SGPRs and VGPRs are copied from the inputs into the first
`sgprCount + vgprCount` struct fields; the per-fetch fields beyond them
stay undef. -/
def seedFields (r : VsEntryRegInfo) (numFetches : Nat) : List FieldVal :=
  (List.range (r.sgprCount + r.vgprCount)).map FieldVal.arg ++
  List.replicate numFetches FieldVal.undef

/-- The per-fetch loop of `FetchShader::generate`: for each fetch whose
input description is present, a vertex-fetch load is emitted and the
fetched value (bitcast to the field type) overwrites struct field
`base + idx`; a fetch with an absent description is skipped.  Returns the
final field values and the indices of fetches for which a load was
emitted. -/
def fetchLoop (base : Nat) :
    Nat → List (VertexFetchInfo × Option VertexInputDescription) →
    List FieldVal → List FieldVal × List Nat
  | _, [], acc => (acc, [])
  | i, (f, some _) :: rest, acc =>
    ((fetchLoop base (i + 1) rest
        (acc.set (base + i) (FieldVal.fetched f.location f.component f.ty))).1,
     i :: (fetchLoop base (i + 1) rest
        (acc.set (base + i) (FieldVal.fetched f.location f.component f.ty))).2)
  | i, (_, none) :: rest, acc => fetchLoop base (i + 1) rest acc

/-- `FetchShader::generate`, at the granularity of the return-struct
fields: start from the pass-through seeding of `createFetchFunc`, then run
the per-fetch loop over the parallel fetch/description lists. -/
def generate (fs : FetchShader) : List FieldVal × List Nat :=
  fetchLoop (fs.vsEntryRegInfo.sgprCount + fs.vsEntryRegInfo.vgprCount) 0
    (fs.fetches.zip fs.fetchDescriptions)
    (seedFields fs.vsEntryRegInfo fs.fetches.length)

/-! ## Copy shader: data model (llpcPatchCopyShader.cpp) -/

/-- Maximum number of geometry output streams (`MaxGsStreams`). -/
def MaxGsStreams : Nat := 4

/-- SPIR-V built-in ids used by the copy shader. -/
def BuiltInPosition : Nat := 0

def BuiltInPointSize : Nat := 1

def BuiltInClipDistance : Nat := 3

def BuiltInCullDistance : Nat := 4

def BuiltInPrimitiveId : Nat := 7

def BuiltInLayer : Nat := 9

def BuiltInViewportIndex : Nat := 10

def BuiltInViewIndex : Nat := 4440

/-- Modelled from the spec: the packed `GsOutLocInfo` key
"{location: integer, isBuiltIn: boolean, streamId: 0..3}"; used as a map
key through its full bit pattern `u32All` (the struct layout itself is in
a header outside this excerpt): 16 bits of location, one isBuiltIn bit,
two streamId bits. -/
def packGsOutLoc (location : Nat) (isBuiltIn : Bool) (streamId : Nat) : Nat :=
  location % 65536 + (if isBuiltIn then 65536 else 0) + 131072 * (streamId % 4)

/-- The streamId bit field of a packed `GsOutLocInfo` value. -/
def streamIdOfPacked (u : Nat) : Nat := u / 131072 % 4

/-- Association-list model of map lookup (`map.find(key)`). -/
def lookupA {α : Type} (k : Nat) (l : List (Nat × α)) : Option α :=
  (l.find? (fun p => p.1 == k)).map (fun p => p.2)

/-- Geometry-stage built-in usage flags consumed by `ExportOutput`. -/
structure GsBuiltInUsage where
  position : Bool
  pointSize : Bool
  clipDistance : Nat
  cullDistance : Nat
  primitiveId : Bool
  layer : Bool
  viewportIndex : Bool
deriving DecidableEq

/-- Transform-feedback destination of one output (`XfbOutInfo`):
buffer, offset, extra offset and the 16-bit flag. -/
structure XfbOutInfo where
  xfbBuffer : Nat
  xfbOffset : Nat
  xfbExtraOffset : Nat
  is16bit : Bool
deriving DecidableEq

/-- The parts of the copy-shader `ResourceUsage` that the pass reads:
per-stream output-location counts, transform-feedback enable, raster
stream selection, the scanned per-stream generic output byte sizes
(location to per-component byte sizes), built-in usage, the built-in
output location map, the packed-key output location map, and the
transform-feedback info map. -/
structure CopyShaderResUsage where
  outLocCount : List Nat
  enableXfb : Bool
  rasterStream : Nat
  genericOutByteSizes : List (List (Nat × List Nat))
  builtInUsage : GsBuiltInUsage
  builtInOutputLocMap : List (Nat × Nat)
  outputLocMap : List (Nat × Nat)
  xfbOutsInfo : List (Nat × XfbOutInfo)
deriving DecidableEq

/-! ## Copy shader: CollectGsGenericOutputInfo -/

/-- One call to the generic output export placeholder found in the
geometry shader: operands (location value, component index, stream id)
plus the component count and scalar bit width of the exported value's
type. -/
structure GsExportCall where
  location : Nat
  compIdx : Nat
  streamId : Nat
  compCount : Nat
  bitWidth : Nat
deriving DecidableEq

/-- One recorded entry of `genericOutByteSizes`. -/
structure RecordedSize where
  streamId : Nat
  location : Nat
  compIdx : Nat
  byteSize : Nat
deriving DecidableEq

/-- Byte size computed by `CollectGsGenericOutputInfo`: the bit width is
widened to 32 when below 32 (BYTE/WORD extended to DWORD in the GS-VS
ring), then `bitWidth / 8 * compCount`. -/
def collectByteSize (bitWidth compCount : Nat) : Nat :=
  (if bitWidth < 32 then 32 else bitWidth) / 8 * compCount

/-- `PatchCopyShader::CollectGsGenericOutputInfo`: scans the export
calls; a call whose packed location key is absent from `outputLocMap` is
skipped (`continue`); `assert(compIdx < 4)` is modelled as a fatal error;
otherwise the byte size is recorded for (stream, mapped location,
component). -/
def collectGs (outputLocMap : List (Nat × Nat)) :
    List GsExportCall → Except Unit (List RecordedSize)
  | [] => .ok []
  | c :: rest =>
    match lookupA (packGsOutLoc c.location false c.streamId) outputLocMap with
    | none => collectGs outputLocMap rest
    | some location =>
      if 4 ≤ c.compIdx then .error ()
      else
        match collectGs outputLocMap rest with
        | .error e => .error e
        | .ok recs =>
          .ok ({ streamId := c.streamId, location := location, compIdx := c.compIdx,
                 byteSize := collectByteSize c.bitWidth c.compCount } :: recs)

/-! ## Copy shader: values and export actions -/

/-- Symbolic IR value inside the copy shader. -/
inductive CsVal
  | ringLoad (location streamId elems : Nat)
  | bitcastI32 (v : CsVal)
  | truncI16 (v : CsVal)
  | bitcastF16 (v : CsVal)
  | constPos0001
deriving DecidableEq

/-- The cast sequence applied by `ExportGenericOutput` to a 16-bit
transform-feedback output: bitcast to i32, truncate to i16, bitcast to
half (element-wise over the components when the value is a vector). -/
def narrow16 (v : CsVal) : CsVal :=
  CsVal.bitcastF16 (CsVal.truncI16 (CsVal.bitcastI32 v))

/-- Calls emitted by `ExportGenericOutput`: the transform-feedback export
(`lgc.output.export.xfb`) and the generic raster-stream export
(`lgc.output.export.generic`). -/
inductive XfbAct
  | xfbExport (buffer offset extraOffset : Nat) (v : CsVal)
  | genericExport (location : Nat) (v : CsVal)
deriving DecidableEq

/-- The raster-stream part of `ExportGenericOutput`: a generic export
call when this stream is the raster stream (note it receives whatever
`pOutputValue` holds at that point). -/
def rasterExportActs (ru : CopyShaderResUsage) (v : CsVal)
    (location streamId : Nat) : List XfbAct :=
  if ru.rasterStream == streamId then [XfbAct.genericExport location v] else []

/-- `PatchCopyShader::ExportGenericOutput`.  With transform feedback
enabled it reverse-looks-up the packed key whose mapped location and
stream match; a failed lookup hits `assert(locIter != outLocMap.end())`,
modelled as a fatal error.  If the key has transform-feedback info, a
16-bit flagged value is narrowed before the transform-feedback export. -/
def exportGenericOutput (ru : CopyShaderResUsage) (v : CsVal)
    (location streamId : Nat) : Except Unit (List XfbAct) :=
  if ru.enableXfb then
    match ru.outputLocMap.find?
        (fun p => p.2 == location && streamIdOfPacked p.1 == streamId) with
    | none => .error ()
    | some kv =>
      match lookupA kv.1 ru.xfbOutsInfo with
      | some xi =>
        .ok (XfbAct.xfbExport xi.xfbBuffer xi.xfbOffset xi.xfbExtraOffset
              (if xi.is16bit then narrow16 v else v) ::
             rasterExportActs ru (if xi.is16bit then narrow16 v else v) location streamId)
      | none => .ok (rasterExportActs ru v location streamId)
  else .ok (rasterExportActs ru v location streamId)

/-! ## Copy shader: ExportOutput -/

/-- Calls emitted by `ExportOutput`, at the granularity of the helper
calls it makes: one `LoadValueFromGsVsRing` per value, one
`ExportGenericOutput` per generic location, one `ExportBuiltInOutput` per
built-in. -/
inductive ExpAct
  | load (location streamId elems : Nat)
  | exportGeneric (location : Nat) (v : CsVal)
  | exportBuiltIn (builtInId : Nat) (v : CsVal)
deriving DecidableEq

/-- Total byte size of one location: the sum of its four per-component
byte sizes (`for (unsigned i = 0; i < 4; ++i) byteSize += ...`). -/
def sum4 (sizes : List Nat) : Nat :=
  sizes.getD 0 0 + sizes.getD 1 0 + sizes.getD 2 0 + sizes.getD 3 0

/-- The generic-output part of `ExportOutput`: for each recorded
location, one ring load of `byteSize / 4` 32-bit (float) units followed
by one generic export of the loaded value. -/
def genericExportActs (byteSizeMap : List (Nat × List Nat)) (streamId : Nat) :
    List ExpAct :=
  (byteSizeMap.map (fun p =>
    [ExpAct.load p.1 streamId (sum4 p.2 / 4),
     ExpAct.exportGeneric p.1 (CsVal.ringLoad p.1 streamId (sum4 p.2 / 4))])).flatten

/-- The built-in output list assembled by `ExportOutput`: (built-in id,
number of 32-bit elements of its type), in source order.  With
multi-view enabled, `gl_ViewIndex` is exported instead of `gl_Layer`. -/
def builtInPairs (bu : GsBuiltInUsage) (enableMultiView : Bool) : List (Nat × Nat) :=
  (if bu.position then [(BuiltInPosition, 4)] else []) ++
  (if bu.pointSize then [(BuiltInPointSize, 1)] else []) ++
  (if 0 < bu.clipDistance then [(BuiltInClipDistance, bu.clipDistance)] else []) ++
  (if 0 < bu.cullDistance then [(BuiltInCullDistance, bu.cullDistance)] else []) ++
  (if bu.primitiveId then [(BuiltInPrimitiveId, 1)] else []) ++
  (if bu.layer || enableMultiView then
    [((if enableMultiView then BuiltInViewIndex else BuiltInLayer), 1)] else []) ++
  (if bu.viewportIndex then [(BuiltInViewportIndex, 1)] else [])

/-- The built-in part of `ExportOutput`: each recorded built-in is loaded
from the ring at its mapped location and exported. -/
def builtInExportActs (ru : CopyShaderResUsage) (enableMultiView : Bool)
    (streamId : Nat) : List ExpAct :=
  ((builtInPairs ru.builtInUsage enableMultiView).map (fun b =>
    [ExpAct.load ((lookupA b.1 ru.builtInOutputLocMap).getD 0) streamId b.2,
     ExpAct.exportBuiltIn b.1
       (CsVal.ringLoad ((lookupA b.1 ru.builtInOutputLocMap).getD 0) streamId b.2)])).flatten

/-- The dummy `gl_Position = vec4(0, 0, 0, 1)` export, emitted when
transform feedback is enabled and the geometry stage records no position
output. -/
def dummyPositionActs (ru : CopyShaderResUsage) : List ExpAct :=
  if ru.enableXfb && !ru.builtInUsage.position then
    [ExpAct.exportBuiltIn BuiltInPosition CsVal.constPos0001]
  else []

/-- `PatchCopyShader::ExportOutput` for one stream: generic outputs, then
built-in outputs, then the dummy position when applicable. -/
def exportOutput (ru : CopyShaderResUsage) (enableMultiView : Bool)
    (streamId : Nat) : List ExpAct :=
  genericExportActs (ru.genericOutByteSizes.getD streamId []) streamId ++
  builtInExportActs ru enableMultiView streamId ++
  dummyPositionActs ru

/-! ## Copy shader: runOnModule control flow -/

/-- Semantics of the `amdgcn.ubfe` intrinsic used to extract the stream
id: the `width`-bit field of `value` at bit `offset`. -/
def ubfe (value offset width : Nat) : Nat := value / 2 ^ offset % 2 ^ width

/-- The stream-counting loop of `runOnModule`, with `i` the index of the
first remaining entry: counts streams with a positive output-location
count and remembers the first one (`outputStreamId` stays `InvalidValue`,
modelled as `none`, when every count is zero). -/
def streamStats : Nat → List Nat → Nat × Option Nat
  | _, [] => (0, none)
  | i, c :: rest =>
    if 0 < c then ((streamStats (i + 1) rest).1 + 1, some i)
    else streamStats (i + 1) rest

/-- A branch target in the generated copy shader: the ending (return)
block or a per-stream block. -/
inductive BlockRef
  | endBlock
  | streamBlock (streamId : Nat)
deriving DecidableEq

/-- One generated `.streamN` block: the stream whose exports it performs,
the emitted calls, and its terminator target. -/
structure StreamBlock where
  streamId : Nat
  acts : List ExpAct
  succ : BlockRef
deriving DecidableEq

/-- Shape of the generated copy-shader body: either a switch in the entry
block (scrutinee value, case list, default target, case blocks), or a
single unconditional export sequence in the entry block followed by a
branch. -/
inductive CopyBody
  | mux (key : Nat) (cases : List (Nat × BlockRef)) (dflt : BlockRef)
      (blocks : List StreamBlock)
  | single (streamId : Nat) (acts : List ExpAct) (succ : BlockRef)
deriving DecidableEq

/-- The streams with a positive output-location count, in the order the
switch-emission loop visits them (`streamId < MaxGsStreams`). -/
def activeStreamList (counts : List Nat) : List Nat :=
  (List.range MaxGsStreams).filter (fun i => decide (0 < counts.getD i 0))

/-- The control-flow emission of `PatchCopyShader::runOnModule` (after
the prologue): when more than one stream is active and transform feedback
is enabled, a switch on `streamInfo[25:24]` with one case block per
active stream, each exporting that stream and branching to the end block,
with the end block as default; otherwise a single export sequence for the
designated stream. -/
def genCopyBody (ru : CopyShaderResUsage) (enableMultiView : Bool)
    (streamInfo : Nat) : CopyBody :=
  if 1 < (streamStats 0 ru.outLocCount).1 ∧ ru.enableXfb = true then
    CopyBody.mux (ubfe streamInfo 24 2)
      ((activeStreamList ru.outLocCount).map (fun i => (i, BlockRef.streamBlock i)))
      BlockRef.endBlock
      ((activeStreamList ru.outLocCount).map (fun i =>
        { streamId := i, acts := exportOutput ru enableMultiView i,
          succ := BlockRef.endBlock }))
  else
    CopyBody.single
      (match (streamStats 0 ru.outLocCount).2 with
       | none => 0
       | some i => i)
      (exportOutput ru enableMultiView
        (match (streamStats 0 ru.outLocCount).2 with
         | none => 0
         | some i => i))
      BlockRef.endBlock

/-- Boolean selector for `ExpAct`s that address a given location (loads
and generic exports). -/
def actAtLoc (location : Nat) : ExpAct → Bool
  | .load l _ _ => l == location
  | .exportGeneric l _ => l == location
  | .exportBuiltIn _ _ => false

/-! ## Concrete instances used by the witnesses -/

/-- A bound example fetch. -/
def fetchEx0 : VertexFetchInfo := ⟨0, 0, (.c1, .f32)⟩

/-- An unbound example fetch. -/
def fetchEx1 : VertexFetchInfo := ⟨1, 0, (.c4, .i32)⟩

/-- Example register info: 2 SGPRs, 1 VGPR. -/
def regEx : VsEntryRegInfo := ⟨0, 2, 1, 0, 1, 0, 0, 0, false⟩

/-- Example input description. -/
def descEx : VertexInputDescription := ⟨0, 16, 0, 1⟩

/-- Example fetch shader with one bound and one unbound fetch. -/
def fsEx : FetchShader := ⟨0, [fetchEx0, fetchEx1], regEx, [some descEx, none]⟩

/-- Example built-in usage with no recorded built-ins. -/
def buEmpty : GsBuiltInUsage := ⟨false, false, 0, 0, false, false, false⟩

/-- Example resource usage: streams 0 and 2 active, transform feedback
enabled. -/
def ruMux : CopyShaderResUsage :=
  { outLocCount := [2, 0, 1, 0], enableXfb := true, rasterStream := 0,
    genericOutByteSizes := [[(0, [4, 0, 0, 0])], [], [(1, [8, 0, 0, 0])], []],
    builtInUsage := buEmpty, builtInOutputLocMap := [],
    outputLocMap := [(0, 0), (packGsOutLoc 1 false 2, 1)], xfbOutsInfo := [] }

/-- Example resource usage: no active stream, transform feedback enabled,
no position output. -/
def ruZero : CopyShaderResUsage :=
  { outLocCount := [0, 0, 0, 0], enableXfb := true, rasterStream := 0,
    genericOutByteSizes := [], builtInUsage := buEmpty,
    builtInOutputLocMap := [], outputLocMap := [], xfbOutsInfo := [] }

/-- Example resource usage with a 16-bit transform-feedback output
recorded at location 0 of stream 0. -/
def ruXfb16 : CopyShaderResUsage :=
  { outLocCount := [1, 0, 0, 0], enableXfb := true, rasterStream := 0,
    genericOutByteSizes := [[(0, [4, 0, 0, 0])], [], [], []],
    builtInUsage := buEmpty, builtInOutputLocMap := [],
    outputLocMap := [(packGsOutLoc 0 false 0, 0)],
    xfbOutsInfo := [(packGsOutLoc 0 false 0, ⟨1, 16, 0, true⟩)] }

/-- Example resource usage with transform feedback enabled but an empty
output-location map. -/
def ruNoMap : CopyShaderResUsage :=
  { outLocCount := [1, 0, 0, 0], enableXfb := true, rasterStream := 0,
    genericOutByteSizes := [[(3, [4, 0, 0, 0])], [], [], []],
    builtInUsage := buEmpty, builtInOutputLocMap := [],
    outputLocMap := [], xfbOutsInfo := [] }

/-! ## FetchShader: serialization facts -/

/-- Every mangled type name is nonempty. -/
theorem getTypeName_length_pos : ∀ t : VfTy, 0 < (getTypeName t).length := by
  decide

/-- The mangled type names form a prefix-free code: a name that is a
prefix of another name is that very name. -/
theorem getTypeName_prefix_free :
    ∀ t1 t2 : VfTy, getTypeName t1 <+: getTypeName t2 → t1 = t2 := by
  decide

/-- Appending after a type name is uniquely parseable: equal byte strings
starting with type names start with the same type. -/
theorem getTypeName_append_inj {t1 t2 : VfTy} {x y : List Nat}
    (h : getTypeName t1 ++ x = getTypeName t2 ++ y) : t1 = t2 ∧ x = y := by
  have p1 : getTypeName t1 <+: getTypeName t2 ++ y := ⟨x, h⟩
  have p2 : getTypeName t2 <+: getTypeName t2 ++ y := ⟨y, rfl⟩
  have ht : t1 = t2 := by
    rcases List.prefix_or_prefix_of_prefix p1 p2 with hp | hp
    · exact getTypeName_prefix_free t1 t2 hp
    · exact (getTypeName_prefix_free t2 t1 hp).symm
  subst ht
  exact ⟨rfl, List.append_cancel_left h⟩

/-- A single fetch entry parses uniquely out of the front of a byte
string: the four location bytes, four component bytes and the
prefix-free type name pin down the entry and the remainder. -/
theorem serFetch_append_inj {f g : VertexFetchInfo} {x y : List Nat}
    (hf : f.wf) (hg : g.wf)
    (h : serFetch f ++ x = serFetch g ++ y) : f = g ∧ x = y := by
  obtain ⟨floc, fcomp, fty⟩ := f
  obtain ⟨gloc, gcomp, gty⟩ := g
  obtain ⟨hf1, hf2⟩ := hf
  obtain ⟨hg1, hg2⟩ := hg
  simp only [serFetch, toLE4, List.cons_append, List.nil_append, List.cons.injEq,
    List.append_assoc] at h
  obtain ⟨e1, e2, e3, e4, e5, e6, e7, e8, hrest⟩ := h
  obtain ⟨hty, hxy⟩ := getTypeName_append_inj hrest
  simp only [VertexFetchInfo.wf] at hf1 hf2 hg1 hg2
  have hloc : floc = gloc := by omega
  have hcomp : fcomp = gcomp := by omega
  exact ⟨by simp [hloc, hcomp, hty], hxy⟩

/-- Bytes of the fetch-entry section of the shader string. -/
def serFetches (l : List VertexFetchInfo) : List Nat :=
  (l.map serFetch).flatten

/-- Bytes of the description section of the shader string, when the
descriptions were resolved through `findVertexInputDescription`. -/
def serDescs (findDesc : Nat → Option VertexInputDescription)
    (l : List VertexFetchInfo) : List Nat :=
  (l.map (fun f => serDesc (findDesc f.location))).flatten

/-- Core injectivity of the shader-string layout: with a common middle
section `M` (the register-info bytes, plus any already-consumed
description bytes) and descriptions resolved through one common
`findDesc`, equal serialized strings force equal fetch lists. -/
theorem serFetches_middle_inj (findDesc : Nat → Option VertexInputDescription) :
    ∀ (A : List VertexFetchInfo) (M : List Nat) (B : List VertexFetchInfo),
      (∀ f ∈ A, f.wf) → (∀ f ∈ B, f.wf) →
      serFetches A ++ M ++ serDescs findDesc A =
        serFetches B ++ M ++ serDescs findDesc B → A = B := by
  intro A
  induction A with
  | nil =>
    intro M B _ _ h
    cases B with
    | nil => rfl
    | cons g u =>
      exfalso
      have hlen := congrArg List.length h
      have hpos := getTypeName_length_pos g.ty
      simp [serFetches, serDescs, serFetch, toLE4] at hlen
      omega
  | cons f t ih =>
    intro M B hwfA hwfB h
    cases B with
    | nil =>
      exfalso
      have hlen := congrArg List.length h
      have hpos := getTypeName_length_pos f.ty
      simp [serFetches, serDescs, serFetch, toLE4] at hlen
      omega
    | cons g u =>
      have hA : serFetches (f :: t) ++ M ++ serDescs findDesc (f :: t) =
          serFetch f ++ (serFetches t ++ (M ++ serDesc (findDesc f.location)) ++
            serDescs findDesc t) := by
        simp [serFetches, serDescs, List.append_assoc]
      have hB : serFetches (g :: u) ++ M ++ serDescs findDesc (g :: u) =
          serFetch g ++ (serFetches u ++ (M ++ serDesc (findDesc g.location)) ++
            serDescs findDesc u) := by
        simp [serFetches, serDescs, List.append_assoc]
      rw [hA, hB] at h
      obtain ⟨hfg, htail⟩ :=
        serFetch_append_inj (hwfA f (by simp)) (hwfB g (by simp)) h
      subst hfg
      have ht := ih (M ++ serDesc (findDesc f.location)) u
        (fun x hx => hwfA x (by simp [hx]))
        (fun x hx => hwfB x (by simp [hx])) htail
      simp [ht]

/-- C1: two `FetchShader` instances constructed from semantically
identical inputs (equal fetch lists, equal `VsEntryRegInfo`, and vertex
input descriptions that agree at every fetched location, so equal or
equally absent), living at arbitrary memory addresses `a1` and `a2`,
produce byte-identical `getString()` results. -/
theorem fetchShader_getString_deterministic
    (a1 a2 : Nat)
    (fd1 fd2 : Nat → Option VertexInputDescription)
    (fs1 fs2 : List VertexFetchInfo) (r1 r2 : VsEntryRegInfo)
    (hf : fs1 = fs2) (hr : r1 = r2)
    (hd : ∀ f ∈ fs1, fd1 f.location = fd2 f.location) :
    getString (mkFetchShader a1 fd1 fs1 r1) =
      getString (mkFetchShader a2 fd2 fs2 r2) := by
  subst hf
  subst hr
  have hdesc : fs1.map (fun f => fd1 f.location) = fs1.map (fun f => fd2 f.location) :=
    List.map_congr_left hd
  simp [getString, mkFetchShader, hdesc]

/-- C1 witness: a concrete instantiation at two different addresses and
two description resolvers that agree on the (single) fetched location. -/
theorem fetchShader_getString_deterministic_witness :
    (∀ f ∈ [(⟨0, 0, (.c1, .f32)⟩ : VertexFetchInfo)],
      (fun l => if l == 0 then some (⟨1, 16, 0, 7⟩ : VertexInputDescription) else none) f.location =
      (fun l => if l == 0 then some (⟨1, 16, 0, 7⟩ : VertexInputDescription)
                else some ⟨9, 9, 9, 9⟩) f.location) ∧
    getString (mkFetchShader 17
        (fun l => if l == 0 then some ⟨1, 16, 0, 7⟩ else none)
        [⟨0, 0, (.c1, .f32)⟩] ⟨0, 4, 2, 0, 1, 2, 0, 1, true⟩) =
      getString (mkFetchShader 99
        (fun l => if l == 0 then some ⟨1, 16, 0, 7⟩ else some ⟨9, 9, 9, 9⟩)
        [⟨0, 0, (.c1, .f32)⟩] ⟨0, 4, 2, 0, 1, 2, 0, 1, true⟩) :=
  ⟨by decide,
   fetchShader_getString_deterministic 17 99 _ _ _ _ _ _ rfl rfl (by decide)⟩

/-- C2: two `FetchShader` instances built over the same pipeline state
(one shared `findVertexInputDescription`) and the same register info,
whose fetch lists differ in at least one (location, component, type)
entry, produce different `getString()` results. -/
theorem fetchShader_getString_injective
    (findDesc : Nat → Option VertexInputDescription) (reg : VsEntryRegInfo)
    (a1 a2 : Nat) (A B : List VertexFetchInfo)
    (hwfA : ∀ f ∈ A, f.wf) (hwfB : ∀ f ∈ B, f.wf) (hne : A ≠ B) :
    getString (mkFetchShader a1 findDesc A reg) ≠
      getString (mkFetchShader a2 findDesc B reg) := by
  intro h
  apply hne
  apply serFetches_middle_inj findDesc A (serRegInfo reg) B hwfA hwfB
  simpa [getString, mkFetchShader, serFetches, serDescs, List.map_map,
    Function.comp] using h

/-- C2 witness: concrete fetch lists differing in one entry give
different strings. -/
theorem fetchShader_getString_injective_witness :
    (∀ f ∈ [(⟨3, 1, (.c4, .f32)⟩ : VertexFetchInfo)], f.wf) ∧
    (∀ f ∈ [(⟨3, 2, (.c4, .f32)⟩ : VertexFetchInfo)], f.wf) ∧
    ([(⟨3, 1, (.c4, .f32)⟩ : VertexFetchInfo)] ≠ [⟨3, 2, (.c4, .f32)⟩]) ∧
    getString (mkFetchShader 5 (fun _ => none) [⟨3, 1, (.c4, .f32)⟩]
        ⟨0, 4, 2, 0, 1, 2, 0, 1, true⟩) ≠
      getString (mkFetchShader 6 (fun _ => none) [⟨3, 2, (.c4, .f32)⟩]
        ⟨0, 4, 2, 0, 1, 2, 0, 1, true⟩) :=
  ⟨by decide, by decide, by decide,
   fetchShader_getString_injective (fun _ => none) ⟨0, 4, 2, 0, 1, 2, 0, 1, true⟩
     5 6 _ _ (by decide) (by decide) (by decide)⟩

/-! ## FetchShader: generate facts -/

/-- Load indices produced by the fetch loop are at least the starting
index. -/
theorem fetchLoop_load_lb (base : Nat) :
    ∀ (pairs : List (VertexFetchInfo × Option VertexInputDescription))
      (i : Nat) (acc : List FieldVal) (m : Nat),
      m ∈ (fetchLoop base i pairs acc).2 → i ≤ m := by
  intro pairs
  induction pairs with
  | nil => intro i acc m hm; simp [fetchLoop] at hm
  | cons p rest ih =>
    intro i acc m hm
    obtain ⟨f, od⟩ := p
    cases od with
    | some d =>
      simp only [fetchLoop, List.mem_cons] at hm
      rcases hm with hm | hm
      · omega
      · have := ih (i + 1) _ m hm
        omega
    | none =>
      have := ih (i + 1) acc m (by simpa [fetchLoop] using hm)
      omega

/-- A fetch whose description is absent contributes no load index. -/
theorem fetchLoop_no_load (base : Nat) :
    ∀ (pairs : List (VertexFetchInfo × Option VertexInputDescription))
      (i : Nat) (acc : List FieldVal) (k : Nat) (f : VertexFetchInfo),
      pairs[k]? = some (f, none) → (i + k) ∉ (fetchLoop base i pairs acc).2 := by
  intro pairs
  induction pairs with
  | nil => intro i acc k f hk; simp at hk
  | cons p rest ih =>
    intro i acc k f hk
    obtain ⟨g, od⟩ := p
    cases k with
    | zero =>
      simp only [List.getElem?_cons_zero, Option.some.injEq, Prod.mk.injEq] at hk
      obtain ⟨hgf, hod⟩ := hk
      subst hod
      intro hm
      have := fetchLoop_load_lb base rest (i + 1) acc (i + 0)
        (by simpa [fetchLoop] using hm)
      omega
    | succ n =>
      have hk2 : rest[n]? = some (f, none) := by simpa using hk
      have heq : i + (n + 1) = (i + 1) + n := by omega
      cases od with
      | some d =>
        intro hm
        simp only [fetchLoop, List.mem_cons] at hm
        rcases hm with hm | hm
        · omega
        · exact ih (i + 1) _ n f hk2 (heq ▸ hm)
      | none =>
        intro hm
        simp only [fetchLoop] at hm
        exact ih (i + 1) acc n f hk2 (heq ▸ hm)

/-- The fetch loop never writes below `base` plus its starting index. -/
theorem fetchLoop_get_low (base : Nat) :
    ∀ (pairs : List (VertexFetchInfo × Option VertexInputDescription))
      (i : Nat) (acc : List FieldVal) (m : Nat), m < base + i →
      (fetchLoop base i pairs acc).1[m]? = acc[m]? := by
  intro pairs
  induction pairs with
  | nil => intro i acc m _; simp [fetchLoop]
  | cons p rest ih =>
    intro i acc m hm
    obtain ⟨f, od⟩ := p
    cases od with
    | some d =>
      simp only [fetchLoop]
      rw [ih (i + 1) _ m (by omega)]
      exact List.getElem?_set_ne (by omega)
    | none =>
      simp only [fetchLoop]
      exact ih (i + 1) acc m (by omega)

/-- The final value of the struct field of a fetch whose description is
present: the fetched value. -/
theorem fetchLoop_get_present (base : Nat) :
    ∀ (pairs : List (VertexFetchInfo × Option VertexInputDescription))
      (i : Nat) (acc : List FieldVal) (k : Nat) (f : VertexFetchInfo)
      (d : VertexInputDescription),
      pairs[k]? = some (f, some d) → base + i + pairs.length ≤ acc.length →
      (fetchLoop base i pairs acc).1[base + i + k]? =
        some (FieldVal.fetched f.location f.component f.ty) := by
  intro pairs
  induction pairs with
  | nil => intro i acc k f d hk; simp at hk
  | cons p rest ih =>
    intro i acc k f d hk hlen
    obtain ⟨g, od⟩ := p
    cases k with
    | zero =>
      simp only [List.getElem?_cons_zero, Option.some.injEq, Prod.mk.injEq] at hk
      obtain ⟨hgf, hod⟩ := hk
      subst hgf
      subst hod
      simp only [fetchLoop]
      rw [fetchLoop_get_low base rest (i + 1) _ (base + i + 0) (by omega)]
      have hb : base + i < acc.length := by
        simp only [List.length_cons] at hlen
        omega
      simp [List.getElem?_set_self, hb]
    | succ n =>
      have hk2 : rest[n]? = some (f, some d) := by simpa using hk
      have heq : base + i + (n + 1) = base + (i + 1) + n := by omega
      cases od with
      | some d2 =>
        simp only [fetchLoop]
        rw [heq]
        exact ih (i + 1) _ n f d hk2
          (by simp only [List.length_set, List.length_cons] at hlen ⊢; omega)
      | none =>
        simp only [fetchLoop]
        rw [heq]
        exact ih (i + 1) acc n f d hk2
          (by simp only [List.length_cons] at hlen ⊢; omega)

/-- The final value of the struct field of a fetch whose description is
absent: exactly the value the accumulator (the seeded return value)
already held. -/
theorem fetchLoop_get_absent (base : Nat) :
    ∀ (pairs : List (VertexFetchInfo × Option VertexInputDescription))
      (i : Nat) (acc : List FieldVal) (k : Nat) (f : VertexFetchInfo),
      pairs[k]? = some (f, none) → base + i + pairs.length ≤ acc.length →
      (fetchLoop base i pairs acc).1[base + i + k]? = acc[base + i + k]? := by
  intro pairs
  induction pairs with
  | nil => intro i acc k f hk; simp at hk
  | cons p rest ih =>
    intro i acc k f hk hlen
    obtain ⟨g, od⟩ := p
    cases k with
    | zero =>
      simp only [List.getElem?_cons_zero, Option.some.injEq, Prod.mk.injEq] at hk
      obtain ⟨hgf, hod⟩ := hk
      subst hod
      simp only [fetchLoop]
      exact fetchLoop_get_low base rest (i + 1) acc (base + i + 0) (by omega)
    | succ n =>
      have hk2 : rest[n]? = some (f, none) := by simpa using hk
      have heq : base + i + (n + 1) = base + (i + 1) + n := by omega
      cases od with
      | some d2 =>
        simp only [fetchLoop]
        rw [heq]
        rw [ih (i + 1) _ n f hk2
          (by simp only [List.length_set, List.length_cons] at hlen ⊢; omega)]
        exact List.getElem?_set_ne (by omega)
      | none =>
        simp only [fetchLoop]
        rw [heq]
        exact ih (i + 1) acc n f hk2
          (by simp only [List.length_cons] at hlen ⊢; omega)

/-- Fetch-field slots of the seeded return value hold undef. -/
theorem seedFields_get (r : VsEntryRegInfo) (n j : Nat) (hj : j < n) :
    (seedFields r n)[r.sgprCount + r.vgprCount + j]? = some FieldVal.undef := by
  unfold seedFields
  rw [List.getElem?_append_right (by simp)]
  simp [List.getElem?_replicate, hj]

/-- C7: a fetch whose input description is absent gets no vertex-fetch
load, its return-struct field holds exactly the seeded pass-through
value (undef for fetch fields), and every fetch with a present
description still gets its fetched value. -/
theorem fetchShader_generate_skips_absent
    (fs : FetchShader) (idx : Nat) (f : VertexFetchInfo)
    (hlen : fs.fetchDescriptions.length = fs.fetches.length)
    (hfetch : fs.fetches[idx]? = some f)
    (hdesc : fs.fetchDescriptions[idx]? = some none) :
    idx ∉ (generate fs).2 ∧
    (generate fs).1[fs.vsEntryRegInfo.sgprCount + fs.vsEntryRegInfo.vgprCount + idx]? =
      (seedFields fs.vsEntryRegInfo
        fs.fetches.length)[fs.vsEntryRegInfo.sgprCount + fs.vsEntryRegInfo.vgprCount + idx]? ∧
    (seedFields fs.vsEntryRegInfo
        fs.fetches.length)[fs.vsEntryRegInfo.sgprCount + fs.vsEntryRegInfo.vgprCount + idx]? =
      some FieldVal.undef ∧
    (∀ j g d, fs.fetches[j]? = some g → fs.fetchDescriptions[j]? = some (some d) →
      (generate fs).1[fs.vsEntryRegInfo.sgprCount + fs.vsEntryRegInfo.vgprCount + j]? =
        some (FieldVal.fetched g.location g.component g.ty)) := by
  have hidx : idx < fs.fetches.length := by
    by_contra hcon
    rw [List.getElem?_eq_none (by omega)] at hfetch
    exact Option.noConfusion hfetch
  have hseedlen : (seedFields fs.vsEntryRegInfo fs.fetches.length).length =
      fs.vsEntryRegInfo.sgprCount + fs.vsEntryRegInfo.vgprCount + fs.fetches.length := by
    simp [seedFields]
  have hziplen : (fs.fetches.zip fs.fetchDescriptions).length = fs.fetches.length := by
    simp [List.length_zip, hlen]
  have hpair : (fs.fetches.zip fs.fetchDescriptions)[idx]? = some (f, none) := by
    simp [List.getElem?_zip_eq_some, hfetch, hdesc]
  refine ⟨?_, ?_, ?_, ?_⟩
  · have h := fetchLoop_no_load
      (fs.vsEntryRegInfo.sgprCount + fs.vsEntryRegInfo.vgprCount)
      (fs.fetches.zip fs.fetchDescriptions) 0
      (seedFields fs.vsEntryRegInfo fs.fetches.length) idx f hpair
    simpa [generate] using h
  · have h := fetchLoop_get_absent
      (fs.vsEntryRegInfo.sgprCount + fs.vsEntryRegInfo.vgprCount)
      (fs.fetches.zip fs.fetchDescriptions) 0
      (seedFields fs.vsEntryRegInfo fs.fetches.length) idx f hpair
      (by rw [hseedlen, hziplen]; omega)
    simpa [generate] using h
  · exact seedFields_get fs.vsEntryRegInfo fs.fetches.length idx hidx
  · intro j g d hg hd
    have hpj : (fs.fetches.zip fs.fetchDescriptions)[j]? = some (g, some d) := by
      simp [List.getElem?_zip_eq_some, hg, hd]
    have h := fetchLoop_get_present
      (fs.vsEntryRegInfo.sgprCount + fs.vsEntryRegInfo.vgprCount)
      (fs.fetches.zip fs.fetchDescriptions) 0
      (seedFields fs.vsEntryRegInfo fs.fetches.length) j g d hpj
      (by rw [hseedlen, hziplen]; omega)
    simpa [generate] using h

/-- C7 witness: the concrete fetch shader `fsEx`, whose second fetch is
unbound: no load index 1, its field (slot 4) stays undef, and the bound
fetch's field holds the fetched value. -/
theorem fetchShader_generate_skips_absent_witness :
    fsEx.fetchDescriptions.length = fsEx.fetches.length ∧
    fsEx.fetches[1]? = some fetchEx1 ∧
    fsEx.fetchDescriptions[1]? = some none ∧
    1 ∉ (generate fsEx).2 ∧
    (generate fsEx).1[4]? = some FieldVal.undef ∧
    (generate fsEx).1[3]? =
      some (FieldVal.fetched fetchEx0.location fetchEx0.component fetchEx0.ty) := by
  have h := fetchShader_generate_skips_absent fsEx 1 fetchEx1 (by decide) (by decide)
    (by decide)
  exact ⟨by decide, by decide, by decide, h.1, h.2.1.trans h.2.2.1,
    h.2.2.2 0 fetchEx0 descEx (by decide) (by decide)⟩

/-! ## Copy shader: stream-counting facts -/

/-- The stream count computed by the `runOnModule` loop equals the
number of streams with a positive output-location count. -/
theorem streamStats_fst (l : List Nat) :
    ∀ i : Nat, (streamStats i l).1 = (l.filter (fun c => decide (0 < c))).length := by
  induction l with
  | nil => intro i; simp [streamStats]
  | cons c rest ih =>
    intro i
    by_cases hc : 0 < c
    · simp [streamStats, hc, ih]
    · simp [streamStats, hc, ih]

/-- The first-active-stream id computed by the `runOnModule` loop is the
index of the first positive count, shifted by the starting index. -/
theorem streamStats_snd (l : List Nat) :
    ∀ i : Nat, (streamStats i l).2 =
      (l.findIdx? (fun c => decide (0 < c))).map (· + i) := by
  induction l with
  | nil => intro i; simp [streamStats]
  | cons c rest ih =>
    intro i
    by_cases hc : 0 < c
    · simp [streamStats, hc, List.findIdx?_cons]
    · rw [streamStats]
      rw [if_neg hc, ih (i + 1)]
      simp only [List.findIdx?_cons, decide_eq_true_eq]
      rw [if_neg hc]
      cases h : List.findIdx? (fun c => decide (0 < c)) rest with
      | none => simp [h]
      | some a => simp [h]; omega

/-- C3: with more than one active stream and transform feedback enabled,
the entry block ends in a switch on the 2-bit field at bit offset 24 of
the stream-info parameter, with exactly one case per active stream (each
case block exports that stream and branches to the return block) and the
return block as default; otherwise no switch is emitted and a single
unconditional export sequence for the designated stream is generated. -/
theorem copyShader_stream_mux
    (ru : CopyShaderResUsage) (mv : Bool) (streamInfo : Nat)
    (_hlen : ru.outLocCount.length = 4) :
    ((1 < (ru.outLocCount.filter (fun c => decide (0 < c))).length ∧
        ru.enableXfb = true) →
      genCopyBody ru mv streamInfo =
        CopyBody.mux (streamInfo / 2 ^ 24 % 2 ^ 2)
          ((activeStreamList ru.outLocCount).map (fun i => (i, BlockRef.streamBlock i)))
          BlockRef.endBlock
          ((activeStreamList ru.outLocCount).map (fun i =>
            ⟨i, exportOutput ru mv i, BlockRef.endBlock⟩)) ∧
      (activeStreamList ru.outLocCount).Nodup ∧
      (∀ i, i ∈ activeStreamList ru.outLocCount ↔
        i < 4 ∧ 0 < ru.outLocCount.getD i 0)) ∧
    (((ru.outLocCount.filter (fun c => decide (0 < c))).length ≤ 1 ∨
        ru.enableXfb = false) →
      genCopyBody ru mv streamInfo =
        CopyBody.single ((ru.outLocCount.findIdx? (fun c => decide (0 < c))).getD 0)
          (exportOutput ru mv
            ((ru.outLocCount.findIdx? (fun c => decide (0 < c))).getD 0))
          BlockRef.endBlock) := by
  have hsid : (match (streamStats 0 ru.outLocCount).2 with
      | none => 0
      | some i => i) =
      (ru.outLocCount.findIdx? (fun c => decide (0 < c))).getD 0 := by
    rw [streamStats_snd]
    cases h : List.findIdx? (fun c => decide (0 < c)) ru.outLocCount with
    | none => simp [h]
    | some a => simp [h]
  constructor
  · rintro ⟨hcnt, hxfb⟩
    refine ⟨?_, ?_, ?_⟩
    · unfold genCopyBody
      rw [if_pos ⟨by rw [streamStats_fst]; exact hcnt, hxfb⟩]
      rfl
    · exact List.Nodup.filter _ (List.nodup_range MaxGsStreams)
    · intro i
      simp [activeStreamList, List.mem_filter, List.mem_range, MaxGsStreams]
  · intro h
    unfold genCopyBody
    rw [if_neg (by
      rintro ⟨h1, h2⟩
      rw [streamStats_fst] at h1
      rcases h with h | h
      · omega
      · rw [h2] at h; exact Bool.noConfusion h)]
    rw [hsid]

/-- C3 witness: the concrete `ruMux` (streams 0 and 2 active, transform
feedback on) yields a switch with exactly two cases plus the end-block
default, and with transform feedback off the single-export shape. -/
theorem copyShader_stream_mux_witness :
    (1 < (ruMux.outLocCount.filter (fun c => decide (0 < c))).length ∧
      ruMux.enableXfb = true) ∧
    ruMux.outLocCount.length = 4 ∧
    genCopyBody ruMux false 0 =
      CopyBody.mux 0 [(0, BlockRef.streamBlock 0), (2, BlockRef.streamBlock 2)]
        BlockRef.endBlock
        [⟨0, exportOutput ruMux false 0, BlockRef.endBlock⟩,
         ⟨2, exportOutput ruMux false 2, BlockRef.endBlock⟩] := by
  have h := (copyShader_stream_mux ruMux false 0 (by decide)).1 ⟨by decide, by decide⟩
  refine ⟨⟨by decide, by decide⟩, by decide, ?_⟩
  rw [h.1]
  rfl

/-- C4: every byte size recorded by the scan is computed after widening
sub-32-bit components to 32 bits, so (for the component widths an export
can have) every recorded byte size is a multiple of 4, and a single
8-bit or 16-bit component is recorded as 4 bytes. -/
theorem copyShader_byte_sizes_widened :
    (∀ (locMap : List (Nat × Nat)) (calls : List GsExportCall)
        (recs : List RecordedSize),
      collectGs locMap calls = .ok recs →
      (∀ c ∈ calls, c.bitWidth = 8 ∨ c.bitWidth = 16 ∨ c.bitWidth = 32 ∨
        c.bitWidth = 64) →
      ∀ r ∈ recs, 4 ∣ r.byteSize) ∧
    (∀ bitWidth compCount, bitWidth < 32 →
      collectByteSize bitWidth compCount = 32 / 8 * compCount) ∧
    collectByteSize 8 1 = 4 ∧ collectByteSize 16 1 = 4 := by
  refine ⟨?_, ?_, by decide, by decide⟩
  case refine_2 =>
    intro bitWidth compCount h
    simp [collectByteSize, h]
  · intro locMap calls
    induction calls with
    | nil =>
      intro recs hok _ r hr
      simp only [collectGs, Except.ok.injEq] at hok
      subst hok
      simp at hr
    | cons c rest ih =>
      intro recs hok hw r hr
      rw [collectGs] at hok
      cases hl : lookupA (packGsOutLoc c.location false c.streamId) locMap with
      | none =>
        rw [hl] at hok
        exact ih recs hok (fun x hx => hw x (by simp [hx])) r hr
      | some location =>
        rw [hl] at hok
        dsimp only at hok
        by_cases h4 : 4 ≤ c.compIdx
        · rw [if_pos h4] at hok
          exact Except.noConfusion hok
        · rw [if_neg h4] at hok
          cases hrest : collectGs locMap rest with
          | error e =>
            rw [hrest] at hok
            exact Except.noConfusion hok
          | ok recs2 =>
            rw [hrest] at hok
            simp only [Except.ok.injEq] at hok
            subst hok
            rcases List.mem_cons.mp hr with rfl | hmem
            · rcases hw c (by simp) with h | h | h | h <;>
                (simp [collectByteSize, h]; try omega)
            · exact ih recs2 hrest (fun x hx => hw x (by simp [hx])) r hmem

/-- C4 witness: a concrete scan over one 16-bit single-component export
records byte size 4, a multiple of 4. -/
theorem copyShader_byte_sizes_widened_witness :
    collectGs [(packGsOutLoc 2 false 0, 7)] [⟨2, 0, 0, 1, 16⟩] =
      .ok [⟨0, 7, 0, 4⟩] ∧
    (∀ c ∈ [(⟨2, 0, 0, 1, 16⟩ : GsExportCall)],
      c.bitWidth = 8 ∨ c.bitWidth = 16 ∨ c.bitWidth = 32 ∨ c.bitWidth = 64) ∧
    (8 : Nat) < 32 ∧
    4 ∣ (RecordedSize.mk 0 7 0 4).byteSize ∧
    collectByteSize 8 3 = 32 / 8 * 3 := by
  refine ⟨rfl, by decide, by decide, ?_, ?_⟩
  · exact copyShader_byte_sizes_widened.1 [(packGsOutLoc 2 false 0, 7)]
      [⟨2, 0, 0, 1, 16⟩] [⟨0, 7, 0, 4⟩] rfl (by decide)
      ⟨0, 7, 0, 4⟩ (by simp)
  · exact copyShader_byte_sizes_widened.2.1 8 3 (by decide)

/-- C5: an output routed to transform feedback that is flagged 16-bit is
narrowed (bitcast to i32, truncated to i16, reinterpreted as half,
element-wise over components) before the transform-feedback export; an
output not flagged 16-bit is written unchanged. -/
theorem copyShader_xfb16_narrowing
    (ru : CopyShaderResUsage) (v : CsVal) (location streamId : Nat)
    (kv : Nat × Nat) (xi : XfbOutInfo)
    (hxfb : ru.enableXfb = true)
    (hfind : ru.outputLocMap.find?
        (fun p => p.2 == location && streamIdOfPacked p.1 == streamId) = some kv)
    (hxi : lookupA kv.1 ru.xfbOutsInfo = some xi) :
    exportGenericOutput ru v location streamId =
      .ok (XfbAct.xfbExport xi.xfbBuffer xi.xfbOffset xi.xfbExtraOffset
            (if xi.is16bit then narrow16 v else v) ::
           rasterExportActs ru (if xi.is16bit then narrow16 v else v)
             location streamId) ∧
    (xi.is16bit = true →
      (if xi.is16bit then narrow16 v else v) =
        CsVal.bitcastF16 (CsVal.truncI16 (CsVal.bitcastI32 v))) ∧
    (xi.is16bit = false → (if xi.is16bit then narrow16 v else v) = v) := by
  refine ⟨?_, ?_, ?_⟩
  · simp [exportGenericOutput, hxfb, hfind, hxi]
  · intro h; simp [h, narrow16]
  · intro h; simp [h]

/-- C5 witness: the concrete `ruXfb16` narrows the ring-loaded value
before the transform-feedback export. -/
theorem copyShader_xfb16_narrowing_witness :
    ruXfb16.enableXfb = true ∧
    ruXfb16.outputLocMap.find?
        (fun p => p.2 == 0 && streamIdOfPacked p.1 == 0) =
      some (packGsOutLoc 0 false 0, 0) ∧
    lookupA (packGsOutLoc 0 false 0) ruXfb16.xfbOutsInfo =
      some ⟨1, 16, 0, true⟩ ∧
    exportGenericOutput ruXfb16 (CsVal.ringLoad 0 0 1) 0 0 =
      .ok [XfbAct.xfbExport 1 16 0 (narrow16 (CsVal.ringLoad 0 0 1)),
           XfbAct.genericExport 0 (narrow16 (CsVal.ringLoad 0 0 1))] := by
  have h := copyShader_xfb16_narrowing ruXfb16 (CsVal.ringLoad 0 0 1) 0 0
    (packGsOutLoc 0 false 0, 0) ⟨1, 16, 0, true⟩ (by decide) (by decide) (by decide)
  refine ⟨by decide, by decide, by decide, ?_⟩
  rw [h.1]
  rfl

/-- C6: `ExportOutput` emits the constant dummy position export
`(0, 0, 0, 1)` exactly when transform feedback is enabled and no
position output is recorded. -/
theorem copyShader_dummy_position (ru : CopyShaderResUsage) (mv : Bool) (sid : Nat) :
    ExpAct.exportBuiltIn BuiltInPosition CsVal.constPos0001 ∈ exportOutput ru mv sid ↔
      (ru.enableXfb = true ∧ ru.builtInUsage.position = false) := by
  constructor
  · intro h
    rcases List.mem_append.mp h with h | h
    · rcases List.mem_append.mp h with h | h
      · simp only [genericExportActs, List.mem_flatten, List.mem_map] at h
        obtain ⟨l, ⟨a, hab, hl⟩, hml⟩ := h
        subst hl
        simp at hml
      · simp only [builtInExportActs, List.mem_flatten, List.mem_map] at h
        obtain ⟨l, ⟨b, hb, hl⟩, hml⟩ := h
        subst hl
        simp at hml
    · simp only [dummyPositionActs] at h
      by_cases hc : ru.enableXfb && !ru.builtInUsage.position
      · rw [Bool.and_eq_true, Bool.not_eq_true'] at hc
        exact hc
      · rw [if_neg hc] at h
        simp at h
  · rintro ⟨h1, h2⟩
    refine List.mem_append.mpr (Or.inr ?_)
    simp [dummyPositionActs, h1, h2]

/-- C6 witness: the concrete `ruZero` (transform feedback on, position
absent) contains the dummy export; its transform feedback flag and
position flag are as required. -/
theorem copyShader_dummy_position_witness :
    ruZero.enableXfb = true ∧ ruZero.builtInUsage.position = false ∧
    ExpAct.exportBuiltIn BuiltInPosition CsVal.constPos0001 ∈
      exportOutput ruZero false 0 :=
  ⟨by decide, by decide,
   (copyShader_dummy_position ruZero false 0).mpr ⟨by decide, by decide⟩⟩

/-- Locations absent from the byte-size map contribute no filtered
action. -/
theorem genericExportActs_filter_nil
    (byteSizeMap : List (Nat × List Nat)) (sid location : Nat)
    (h : location ∉ byteSizeMap.map Prod.fst) :
    (genericExportActs byteSizeMap sid).filter (actAtLoc location) = [] := by
  induction byteSizeMap with
  | nil => simp [genericExportActs]
  | cons p rest ih =>
    simp only [List.map_cons, List.mem_cons] at h
    push_neg at h
    obtain ⟨h1, h2⟩ := h
    have hb : (p.1 == location) = false := beq_eq_false_iff_ne.mpr (Ne.symm h1)
    have hsplit : genericExportActs (p :: rest) sid =
        [ExpAct.load p.1 sid (sum4 p.2 / 4),
         ExpAct.exportGeneric p.1 (CsVal.ringLoad p.1 sid (sum4 p.2 / 4))] ++
        genericExportActs rest sid := by
      simp [genericExportActs]
    rw [hsplit, List.filter_append, ih h2]
    simp [actAtLoc, hb]

/-- C8: in the generic part of the per-stream export sequence, every
recorded location (with distinct keys and nonzero total byte size) gets
exactly one ring load widened to `totalByteSize / 4` 32-bit units
followed by exactly one generic export of that loaded value. -/
theorem copyShader_generic_export_once
    (byteSizeMap : List (Nat × List Nat)) (sid location : Nat) (sizes : List Nat)
    (hmem : (location, sizes) ∈ byteSizeMap)
    (hnodup : (byteSizeMap.map Prod.fst).Nodup)
    (_hnz : sum4 sizes ≠ 0) :
    (genericExportActs byteSizeMap sid).filter (actAtLoc location) =
      [ExpAct.load location sid (sum4 sizes / 4),
       ExpAct.exportGeneric location (CsVal.ringLoad location sid (sum4 sizes / 4))] := by
  induction byteSizeMap with
  | nil => simp at hmem
  | cons p rest ih =>
    have hsplit : genericExportActs (p :: rest) sid =
        [ExpAct.load p.1 sid (sum4 p.2 / 4),
         ExpAct.exportGeneric p.1 (CsVal.ringLoad p.1 sid (sum4 p.2 / 4))] ++
        genericExportActs rest sid := by
      simp [genericExportActs]
    rw [hsplit, List.filter_append]
    have hnodup2 : (p.1 :: rest.map Prod.fst).Nodup := by
      rw [List.map_cons] at hnodup
      exact hnodup
    have hn := List.nodup_cons.mp hnodup2
    rcases List.mem_cons.mp hmem with heq | hmem2
    · have hp : p = (location, sizes) := heq.symm
      subst hp
      have hrest : (genericExportActs rest sid).filter (actAtLoc location) = [] :=
        genericExportActs_filter_nil rest sid location hn.1
      rw [hrest]
      simp [actAtLoc]
    · have hne : p.1 ≠ location := by
        intro he
        exact hn.1 (he ▸ List.mem_map.mpr ⟨(location, sizes), hmem2, rfl⟩)
      have hb : (p.1 == location) = false := beq_eq_false_iff_ne.mpr hne
      rw [ih hmem2 hn.2]
      simp [actAtLoc, hb]

/-- C8 witness: a concrete two-location byte-size map yields exactly one
load of 3 dwords and one export for location 5. -/
theorem copyShader_generic_export_once_witness :
    ((5, [4, 4, 4, 0]) ∈ [(2, [4, 0, 0, 0]), (5, [4, 4, 4, 0])]) ∧
    (([(2, [4, 0, 0, 0]), (5, [4, 4, 4, 0])].map Prod.fst).Nodup) ∧
    sum4 [4, 4, 4, 0] ≠ 0 ∧
    (genericExportActs [(2, [4, 0, 0, 0]), (5, [4, 4, 4, 0])] 0).filter (actAtLoc 5) =
      [ExpAct.load 5 0 3, ExpAct.exportGeneric 5 (CsVal.ringLoad 5 0 3)] := by
  have h := copyShader_generic_export_once [(2, [4, 0, 0, 0]), (5, [4, 4, 4, 0])]
    0 5 [4, 4, 4, 0] (by decide) (by decide) (by decide)
  exact ⟨by decide, by decide, by decide, h⟩

/-- C9 counterexample: `CollectGsGenericOutputInfo` encounters an export
whose packed location key is absent from the output-location map and
does not fail: it silently skips the export and completes normally. -/
theorem copyShader_missing_key_skipped_cex :
    lookupA (packGsOutLoc 5 false 0) ([] : List (Nat × Nat)) = none ∧
    collectGs [] [⟨5, 0, 0, 1, 32⟩] ≠ .error () ∧
    collectGs [] [⟨5, 0, 0, 1, 32⟩] = .ok [] := by
  have hok : collectGs [] [⟨5, 0, 0, 1, 32⟩] = .ok [] := rfl
  refine ⟨by decide, ?_, hok⟩
  intro hcon
  rw [hok] at hcon
  exact Except.noConfusion hcon

/-- C9 amended: in `ExportGenericOutput` a location with no matching
entry in the recorded output-location map is fatal
(`assert(locIter != outLocMap.end())`), while in
`CollectGsGenericOutputInfo` an export whose packed key is absent from
the map is silently skipped (recording nothing, failing nothing). -/
theorem copyShader_missing_key_behavior :
    (∀ (ru : CopyShaderResUsage) (v : CsVal) (location sid : Nat),
      ru.enableXfb = true →
      ru.outputLocMap.find?
        (fun p => p.2 == location && streamIdOfPacked p.1 == sid) = none →
      exportGenericOutput ru v location sid = .error ()) ∧
    (∀ (locMap : List (Nat × Nat)) (c : GsExportCall) (rest : List GsExportCall),
      lookupA (packGsOutLoc c.location false c.streamId) locMap = none →
      collectGs locMap (c :: rest) = collectGs locMap rest) := by
  constructor
  · intro ru v location sid hxfb hfind
    simp [exportGenericOutput, hxfb, hfind]
  · intro locMap c rest hl
    rw [collectGs, hl]

/-- C9 amended witness: with `ruNoMap` (empty output-location map and
transform feedback on), exporting location 3 is fatal; and a concrete
collect call with a missing key reduces to skipping the export. -/
theorem copyShader_missing_key_behavior_witness :
    ruNoMap.enableXfb = true ∧
    ruNoMap.outputLocMap.find?
        (fun p => p.2 == 3 && streamIdOfPacked p.1 == 0) = none ∧
    exportGenericOutput ruNoMap (CsVal.ringLoad 3 0 1) 3 0 = .error () ∧
    lookupA (packGsOutLoc 9 false 1) ([(4, 0)] : List (Nat × Nat)) = none ∧
    collectGs [(4, 0)] [⟨9, 0, 1, 1, 32⟩] = collectGs [(4, 0)] [] := by
  refine ⟨by decide, by decide, ?_, by decide, ?_⟩
  · exact copyShader_missing_key_behavior.1 ruNoMap (CsVal.ringLoad 3 0 1) 3 0
      (by decide) (by decide)
  · exact copyShader_missing_key_behavior.2 [(4, 0)] ⟨9, 0, 1, 1, 32⟩ []
      (by decide)

/-- C10: with a geometry stage present but every per-stream
output-location count zero, the copy shader still gets a single
unconditional export sequence for stream 0 (no switch), which exports
recorded built-ins and, when transform feedback is enabled and position
is absent, the dummy position. -/
theorem copyShader_no_active_streams :
    (∀ (ru : CopyShaderResUsage) (mv : Bool) (streamInfo : Nat),
      ru.outLocCount = [0, 0, 0, 0] →
      genCopyBody ru mv streamInfo =
        CopyBody.single 0 (exportOutput ru mv 0) BlockRef.endBlock) ∧
    (∀ (ru : CopyShaderResUsage) (mv : Bool),
      ru.enableXfb = true → ru.builtInUsage.position = false →
      ExpAct.exportBuiltIn BuiltInPosition CsVal.constPos0001 ∈
        exportOutput ru mv 0) ∧
    (∀ (ru : CopyShaderResUsage) (mv : Bool),
      ru.builtInUsage.position = true →
      ExpAct.exportBuiltIn BuiltInPosition
        (CsVal.ringLoad ((lookupA BuiltInPosition ru.builtInOutputLocMap).getD 0) 0 4) ∈
        exportOutput ru mv 0) := by
  refine ⟨?_, ?_, ?_⟩
  · intro ru mv streamInfo hc
    unfold genCopyBody
    rw [hc]
    simp [streamStats]
  · intro ru mv h1 h2
    refine List.mem_append.mpr (Or.inr ?_)
    simp [dummyPositionActs, h1, h2]
  · intro ru mv h1
    refine List.mem_append.mpr (Or.inl (List.mem_append.mpr (Or.inr ?_)))
    simp only [builtInExportActs, List.mem_flatten, List.mem_map]
    refine ⟨[ExpAct.load ((lookupA BuiltInPosition ru.builtInOutputLocMap).getD 0) 0 4,
      ExpAct.exportBuiltIn BuiltInPosition
        (CsVal.ringLoad ((lookupA BuiltInPosition ru.builtInOutputLocMap).getD 0) 0 4)],
      ⟨(BuiltInPosition, 4), ?_, rfl⟩, by simp⟩
    simp [builtInPairs, h1]

/-- C10 witness: the concrete `ruZero` (all counts zero, transform
feedback on, no position) yields the single stream-0 export containing
the dummy position export. -/
theorem copyShader_no_active_streams_witness :
    ruZero.outLocCount = [0, 0, 0, 0] ∧
    ruZero.enableXfb = true ∧
    ruZero.builtInUsage.position = false ∧
    genCopyBody ruZero false 11 =
      CopyBody.single 0 (exportOutput ruZero false 0) BlockRef.endBlock ∧
    ExpAct.exportBuiltIn BuiltInPosition CsVal.constPos0001 ∈
      exportOutput ruZero false 0 :=
  ⟨by decide, by decide, by decide,
   copyShader_no_active_streams.1 ruZero false 11 (by decide),
   copyShader_no_active_streams.2.1 ruZero false (by decide) (by decide)⟩

end LlpcSpec
